import Mathlib

/-!
Shallow embedding of `joban_yahoo.py`: the Yahoo diainfo status-extraction
heuristics (`fetch_page_info`, `extract_reason_and_delay`), the per-line
collector (`collect_all_lines`), the grouping aggregator
(`build_grouped_message`), the icon selector (`choose_icon`) and the
network-activity order of `main`/`send_bark`.

Python strings are modelled as Lean `String` (character = code point, as in
Python); slicing and indexing are by characters.  The two regular
expressions of the source are modelled by direct scanners over the
character list.  The network is modelled as the token stream each page
yields (`List String`, the stripped strings of the parsed page) or a fetch
failure.
-/

namespace JobanYahoo

/-- Whitespace for Python `str.strip` / `\s` (ASCII whitespace plus the
  non-breaking and ideographic spaces that occur on these pages). -/
def isPySpace (c : Char) : Bool :=
  c.isWhitespace || c = '\x0b' || c = '\x0c' || c = ' ' || c = '　'

/-- Python `s.strip()`. -/
def pyStrip (s : String) : String :=
  String.mk (((s.data.dropWhile isPySpace).reverse.dropWhile isPySpace).reverse)

/-- Character index of the first occurrence of `needle` in `hay`
  (Python `hay.index(needle)`), `none` when absent. -/
def idxOfSub (needle : List Char) : List Char → Option Nat
  | [] => if needle = [] then some 0 else none
  | c :: t =>
    if needle.isPrefixOf (c :: t) then some 0
    else (idxOfSub needle t).map (· + 1)

/-- Python `needle in hay` (substring containment). -/
def substr (needle hay : String) : Bool :=
  (idxOfSub needle.data hay.data).isSome

/-- Python `s.endswith(suffix)`. -/
def pyEndsWith (s suffix : String) : Bool :=
  List.isSuffixOf suffix.data s.data

/-- Digit run to a number (Python `int` on a digit string). -/
def digitsToNat (ds : List Char) : Nat :=
  ds.foldl (fun n c => n * 10 + (c.toNat - 48)) 0

/-- Consume one or two ASCII digits followed by the literal `lit`
  (the regex fragment `\d{1,2}` + literal); returns the rest on success. -/
def matchD12 (cs : List Char) (lit : Char) : Option (List Char) :=
  match cs with
  | c1 :: rest =>
    if c1.isDigit then
      match rest with
      | c2 :: rest2 =>
        if c2.isDigit then
          match rest2 with
          | l :: rest3 => if l = lit then some rest3 else none
          | [] => none
        else if c2 = lit then some rest2 else none
      | [] => none
    else none
  | [] => none

/-- Does `re.compile(r"\d{1,2}月\d{1,2}日\s+\d{1,2}時\d{1,2}分")` match at
  the head of `cs`? -/
def dtMatchAt (cs : List Char) : Bool :=
  match matchD12 cs '月' with
  | none => false
  | some r1 =>
    match matchD12 r1 '日' with
    | none => false
    | some r2 =>
      match r2 with
      | c :: r3 =>
        if isPySpace c then
          match matchD12 (r3.dropWhile isPySpace) '時' with
          | none => false
          | some r4 => (matchD12 r4 '分').isSome
        else false
      | [] => false

def dtSearchL : List Char → Bool
  | [] => false
  | c :: rest => dtMatchAt (c :: rest) || dtSearchL rest

/-- `dt_pattern.search(t)` of the source: the date/time pattern occurs
  somewhere in `t`. -/
def dtSearch (t : String) : Bool :=
  dtSearchL t.data

/-! Configuration constants of the source. -/

def LINES : List (String × String) :=
  [("常磐線(快速)[品川～取手]", "https://transit.yahoo.co.jp/diainfo/57/0"),
   ("常磐線(各停)", "https://transit.yahoo.co.jp/diainfo/58/0"),
   ("常磐線[品川～水戸]", "https://transit.yahoo.co.jp/diainfo/59/59"),
   ("常磐線[水戸～いわき]", "https://transit.yahoo.co.jp/diainfo/59/60")]

def REASON_KEYWORDS : List String :=
  ["人身事故", "脱線事故", "脱線", "車両故障", "車両点検",
   "信号トラブル", "信号関係の故障",
   "踏切内での事故", "踏切での事故",
   "線路内立ち入り", "線路内への立ち入り",
   "強風", "大雨", "大雪", "落雷", "停電",
   "安全確認", "ポイント故障", "工事", "影響", "代行輸送", "見合わせ"]

def ICON_OK : String :=
  "https://raw.githubusercontent.com/twitter/twemoji/master/assets/72x72/2705.png"
def ICON_WARN : String :=
  "https://raw.githubusercontent.com/twitter/twemoji/master/assets/72x72/26a0.png"
def ICON_ERROR : String :=
  "https://raw.githubusercontent.com/twitter/twemoji/master/assets/72x72/274c.png"

def statusWords : List String :=
  ["平常運転", "遅延", "運転見合わせ", "運休", "ダイヤ乱れ", "その他"]

/-! `fetch_page_info`, on the page's stripped-string stream. -/

/-- First element satisfying `p` together with its index
  (the `for i, s in enumerate(strings): ... break` loops of the source). -/
def findWithIdx (p : String → Bool) : List String → Option (Nat × String)
  | [] => none
  | s :: rest =>
    if p s then some (0, s)
    else (findWithIdx p rest).map (fun it => (it.1 + 1, it.2))

/-- Updated-time derivation: first a token whose stripped form ends in
  `更新` and does not contain `掲載`; failing that, the first token whose
  stripped form contains the date/time pattern, with `更新` appended;
  failing both, the sentinel with no index. -/
def updatedOf (strings : List String) : String × Option Nat :=
  match findWithIdx
      (fun s => pyEndsWith (pyStrip s) "更新" && !substr "掲載" (pyStrip s)) strings with
  | some it => (pyStrip it.2, some it.1)
  | none =>
    match findWithIdx (fun s => dtSearch (pyStrip s)) strings with
    | some it => (pyStrip it.2 ++ "更新", some it.1)
    | none => ("更新時刻不明", none)

/-- The status-candidate test of the source:
  `len(text) <= 10 and any(w == text or w in text for w in status_words)`
  with `text = s.strip()`. -/
def statusQualifies (s : String) : Bool :=
  let text := pyStrip s
  decide (text.length ≤ 10) && statusWords.any (fun w => w == text || substr w text)

/-- Candidate order: the five tokens after the updated index (when one
  exists), then the whole stream again as fallback. -/
def statusCandidates (strings : List String) (uidx : Option Nat) : List String :=
  (match uidx with
   | some i => (strings.drop (i + 1)).take 5
   | none => []) ++ strings

/-- The `for s in status_candidates: ... break` loop. -/
def scanStatus : List String → Option String
  | [] => none
  | s :: rest => if statusQualifies s then some (pyStrip s) else scanStatus rest

def statusFrom (strings : List String) (uidx : Option Nat) : String :=
  match scanStatus (statusCandidates strings uidx) with
  | some t => t
  | none => "状態不明"

def statusOf (strings : List String) : String :=
  statusFrom strings (updatedOf strings).2

/-- `detail_start` of the source. -/
def detailStartOf (strings : List String) (status : String) (uidx : Option Nat) : Nat :=
  if status = "状態不明" then
    match uidx with
    | some i => i + 1
    | none => 0
  else
    match strings.findIdx? (· == status) with
    | some i => i + 1
    | none =>
      match uidx with
      | some i => i + 1
      | none => 0

def detailOf (strings : List String) (status : String) (uidx : Option Nat) : String :=
  String.intercalate " " ((strings.drop (detailStartOf strings status uidx)).take 30)

/-- Pure core of `fetch_page_info`: from the page's stripped-string stream
  to `(updated, status, detail_text)`. -/
def fetchPageInfo (strings : List String) : String × String × String :=
  let u := updatedOf strings
  let status := statusFrom strings u.2
  (u.1, status, detailOf strings status u.2)

/-! `extract_reason_and_delay`. -/

def triggerWords : List String :=
  ["事故", "遅延", "見合わせ", "運休", "故障", "脱線", "影響"]

/-- Match of `(\d+)\s*分(?:程度|前後)?(?:の)?遅れ` at the head of `cs`,
  returning the captured number. -/
def matchDelayAt (cs : List Char) : Option Nat :=
  let digits := cs.takeWhile Char.isDigit
  if digits = [] then none
  else
    let r1 := (cs.dropWhile Char.isDigit).dropWhile isPySpace
    match r1 with
    | '分' :: r2 =>
      let r3 :=
        if ['程', '度'].isPrefixOf r2 then r2.drop 2
        else if ['前', '後'].isPrefixOf r2 then r2.drop 2
        else r2
      let r4 := if ['の'].isPrefixOf r3 then r3.drop 1 else r3
      if ['遅', 'れ'].isPrefixOf r4 then some (digitsToNat digits) else none
    | _ => none

def delaySearchL : List Char → Option Nat
  | [] => none
  | c :: rest =>
    match matchDelayAt (c :: rest) with
    | some n => some n
    | none => delaySearchL rest

/-- `re.search(r"(\d+)\s*分(?:程度|前後)?(?:の)?遅れ", detail_text)`,
  leftmost match, captured digits as a number. -/
def delaySearch (detail : String) : Option Nat :=
  delaySearchL detail.data

/-- `extract_reason_and_delay(detail_text, status)`. -/
def extractReasonAndDelay (detail status : String) : Option String × Option Nat :=
  if substr "平常運転" status then (none, none)
  else if substr "事故・遅延に関する情報はありません" detail then (none, none)
  else
    let delay := delaySearch detail
    if !(triggerWords.any (fun kw => substr kw detail)) then (none, delay)
    else
      let reason :=
        match REASON_KEYWORDS.find? (fun kw => substr kw detail) with
        | some kw =>
          match idxOfSub kw.data detail.data with
          | some idx =>
            let start := idx - 20
            some (pyStrip (String.mk
              ((detail.data.drop start).take (idx + kw.length + 40 - start))))
          | none => none
        | none =>
          match detail.data.findIdx? (fun c => c = '。' || c = '！' || c = '!' || c = '？' || c = '?') with
          | some i => some (String.mk (detail.data.take (i + 1)))
          | none =>
            some (String.mk (detail.data.take 60) ++
              (if decide (60 < detail.data.length) then "…" else ""))
      (reason, delay)

/-! `collect_all_lines`.  The token-stream provider (network fetch plus
HTML flattening) is the external input: for each URL it yields either the
page's stripped strings or a stringified exception. -/

structure Record where
  name : String
  updated : String
  status : String
  reason : Option String
  delay_minutes : Option Nat
deriving DecidableEq

/-- Body of the `for name, url in LINES` loop of `collect_all_lines`:
  the `try` arm on a successful fetch, the `except` arm otherwise. -/
def processLine (f : String → Except String (List String)) (p : String × String) : Record :=
  match f p.2 with
  | Except.error e =>
    { name := p.1, updated := "取得失敗", status := "情報取得エラー",
      reason := some e, delay_minutes := none }
  | Except.ok strings =>
    let r := fetchPageInfo strings
    let rd := extractReasonAndDelay r.2.2 r.2.1
    { name := p.1, updated := r.1, status := r.2.1,
      reason := rd.1, delay_minutes := rd.2 }

def collectAllLines (f : String → Except String (List String)) : List Record :=
  LINES.map (processLine f)

/-! `build_grouped_message`. -/

/-- Grouping key `(r["status"] or "", r["reason"] or "", r["delay_minutes"] or 0)`. -/
abbrev Key := String × String × Nat

/-- Python `s or d` on a string. -/
def pyOrStr (s d : String) : String := if s = "" then d else s

/-- Python `o or d` with `o` an optional string. -/
def pyOrOptStr (o : Option String) (d : String) : String :=
  match o with
  | none => d
  | some s => if s = "" then d else s

/-- Python `o or d` with `o` an optional number. -/
def pyOrOptNat (o : Option Nat) (d : Nat) : Nat :=
  match o with
  | none => d
  | some n => if n = 0 then d else n

def keyOf (r : Record) : Key :=
  (pyOrStr r.status "", pyOrOptStr r.reason "", pyOrOptNat r.delay_minutes 0)

/-- `groups.setdefault(key, []).append(r)` on an insertion-ordered map,
  modelled as an association list: append to the existing entry, or append
  a fresh entry at the end. -/
def insertRec (gs : List (Key × List Record)) (k : Key) (r : Record) :
    List (Key × List Record) :=
  match gs with
  | [] => [(k, [r])]
  | g :: t => if g.1 = k then (g.1, g.2 ++ [r]) :: t else g :: insertRec t k r

def addRecord (gs : List (Key × List Record)) (r : Record) : List (Key × List Record) :=
  insertRec gs (keyOf r) r

def groupsOf (results : List Record) : List (Key × List Record) :=
  results.foldl addRecord []

/-- One group's rendered block.  The source computes the joined member
  names (`names`) but the emitted first line of `block_lines` is the empty
  string `f""`; the names never reach the output. -/
def renderGroup (k : Key) (items : List Record) : String :=
  let names := String.intercalate " / " (items.map (fun i => i.name))
  let updated :=
    match items with
    | i :: _ => i.updated
    | [] => ""
  let base := ["", "状態：" ++ k.1, "更新：" ++ updated]
  let base :=
    if (k.2.1 != "") && !substr "情報取得エラー" k.1 then base ++ ["原因：" ++ k.2.1]
    else base
  let base :=
    if (k.2.2 != 0) && !substr "情報取得エラー" k.1 then
      base ++ ["遅延：最大およそ" ++ toString k.2.2 ++ "分"]
    else base
  let _ := names
  String.intercalate "\n" base

/-- One iteration of the `for (status, reason, delay_minutes), items in
  groups.items()` loop: update the two flags, append the block. -/
def buildStep (acc : Bool × Bool × List String) (g : Key × List Record) :
    Bool × Bool × List String :=
  (acc.1 || (!substr "平常運転" g.1.1 && !substr "情報取得エラー" g.1.1),
   acc.2.1 || List.any ["運転見合わせ", "運休", "脱線"] (fun x => substr x g.1.1),
   acc.2.2 ++ [renderGroup g.1 g.2])

/-- `build_grouped_message(results)` as `(has_abnormal, has_severe, body)`. -/
def buildGroupedMessage (results : List Record) : Bool × Bool × String :=
  let acc := (groupsOf results).foldl buildStep (false, false, [])
  (acc.1, acc.2.1, String.intercalate "\n\n" acc.2.2)

/-- The list of rendered blocks, in group order. -/
def blocksOf (results : List Record) : List String :=
  (groupsOf results).map (fun g => renderGroup g.1 g.2)

/-- `choose_icon`. -/
def chooseIcon (hasAbnormal hasSevere : Bool) : String :=
  if !hasAbnormal then ICON_OK
  else if hasSevere then ICON_ERROR
  else ICON_WARN

/-! Network-activity order of `main` and `send_bark`.  `collect_all_lines`
attempts one page fetch per configured line (`requests.get` inside
`fetch_page_info`); afterwards `send_bark` either raises the
missing-credential `RuntimeError` (when `BARK_KEY` is unset or empty,
Python falsy) or issues the notification request. -/

inductive NetEvent where
  | fetch (url : String)
  | configError
  | notify
deriving DecidableEq

/-- Python falsiness of `os.environ.get("BARK_KEY")`. -/
def keyFalsy : Option String → Bool
  | none => true
  | some s => s == ""

def sendBarkEvents (key : Option String) : List NetEvent :=
  if keyFalsy key then [NetEvent.configError] else [NetEvent.notify]

def mainEvents (key : Option String) : List NetEvent :=
  LINES.map (fun p => NetEvent.fetch p.2) ++ sendBarkEvents key

/-! Specification-side devices: the first-seen order of a list of keys
(what insertion-ordered grouping must produce), and lookup of a group's
member list by key.  They are compared with `groupsOf` in the theorems. -/

def seenStep {α : Type} [DecidableEq α] (acc : List α) (k : α) : List α :=
  if k ∈ acc then acc else acc ++ [k]

/-- The distinct elements of `xs`, in order of first occurrence. -/
def firstSeen {α : Type} [DecidableEq α] (xs : List α) : List α :=
  xs.foldl seenStep []

/-- Member records of the group with key `k` (empty when no such group). -/
def lookupItems : List (Key × List Record) → Key → List Record
  | [], _ => []
  | g :: t, k => if g.1 = k then g.2 else lookupItems t k

/-! General lemmas. -/

theorem bool_eq_of_iff {a b : Bool} (h : a = true ↔ b = true) : a = b := by
  cases a <;> cases b <;> simp_all

theorem findWithIdx_eq_none {p : String → Bool} {l : List String}
    (h : ∀ s ∈ l, p s = false) : findWithIdx p l = none := by
  induction l with
  | nil => rfl
  | cons s rest ih =>
    have hs : p s = false := h s (List.mem_cons_self s rest)
    simp [findWithIdx, hs, ih fun t ht => h t (List.mem_cons_of_mem s ht)]

theorem scanStatus_eq_none {l : List String}
    (h : ∀ s ∈ l, statusQualifies s = false) : scanStatus l = none := by
  induction l with
  | nil => rfl
  | cons s rest ih =>
    have hs : statusQualifies s = false := h s (List.mem_cons_self s rest)
    simp [scanStatus, hs, ih fun t ht => h t (List.mem_cons_of_mem s ht)]

theorem scanStatus_some {l : List String} {t : String}
    (h : scanStatus l = some t) :
    ∃ s ∈ l, statusQualifies s = true ∧ t = pyStrip s := by
  induction l with
  | nil => simp [scanStatus] at h
  | cons s rest ih =>
    by_cases hq : statusQualifies s = true
    · refine ⟨s, List.mem_cons_self s rest, hq, ?_⟩
      simp [scanStatus, hq] at h
      exact h.symm
    · simp [scanStatus, hq] at h
      obtain ⟨x, hx, hqx, ht⟩ := ih h
      exact ⟨x, List.mem_cons_of_mem s hx, hqx, ht⟩

/-- The status scan returns the first qualifying candidate (its stripped
  form), or `none` when no candidate qualifies. -/
theorem scanStatus_spec (l : List String) :
    (scanStatus l = none ∧ ∀ s ∈ l, statusQualifies s = false) ∨
    (∃ pre s post, l = pre ++ s :: post ∧
      (∀ t ∈ pre, statusQualifies t = false) ∧
      statusQualifies s = true ∧ scanStatus l = some (pyStrip s)) := by
  induction l with
  | nil => exact Or.inl ⟨rfl, by simp⟩
  | cons s rest ih =>
    by_cases hq : statusQualifies s = true
    · exact Or.inr ⟨[], s, rest, rfl, by simp, hq, by simp [scanStatus, hq]⟩
    · have hq' : statusQualifies s = false := by
        cases hqs : statusQualifies s
        · rfl
        · exact absurd hqs hq
      rcases ih with ⟨hn, hall⟩ | ⟨pre, x, post, heq, hpre, hx, hs⟩
      · refine Or.inl ⟨by simp [scanStatus, hq', hn], ?_⟩
        intro t ht
        rcases List.mem_cons.mp ht with rfl | ht'
        · exact hq'
        · exact hall t ht'
      · refine Or.inr ⟨s :: pre, x, post, by rw [heq, List.cons_append], ?_, hx, ?_⟩
        · intro t ht
          rcases List.mem_cons.mp ht with rfl | ht'
          · exact hq'
          · exact hpre t ht'
        · simp [scanStatus, hq', hs]

theorem mem_seenStep_self {α : Type} [DecidableEq α] (acc : List α) (k : α) :
    k ∈ seenStep acc k := by
  unfold seenStep
  split
  · assumption
  · simp

theorem mem_seenStep_of_mem {α : Type} [DecidableEq α] {acc : List α} {a : α}
    (k : α) (h : a ∈ acc) : a ∈ seenStep acc k := by
  unfold seenStep
  split
  · exact h
  · exact List.mem_append_left _ h

theorem mem_foldl_seenStep {α : Type} [DecidableEq α] (ks : List α) :
    ∀ (acc : List α) (a : α), a ∈ ks.foldl seenStep acc ↔ a ∈ acc ∨ a ∈ ks := by
  induction ks with
  | nil => simp
  | cons k ks ih =>
    intro acc a
    rw [List.foldl_cons, ih]
    constructor
    · rintro (hs | hk)
      · unfold seenStep at hs
        split at hs
        · exact Or.inl hs
        · rcases List.mem_append.mp hs with h | h
          · exact Or.inl h
          · exact Or.inr (List.mem_cons.mpr (Or.inl (List.mem_singleton.mp h)))
      · exact Or.inr (List.mem_cons_of_mem k hk)
    · rintro (ha | hk)
      · exact Or.inl (mem_seenStep_of_mem k ha)
      · rcases List.mem_cons.mp hk with rfl | h
        · exact Or.inl (mem_seenStep_self acc a)
        · exact Or.inr h

theorem foldl_seenStep_dup {α : Type} [DecidableEq α] (ks1 : List α) :
    ∀ (acc : List α) (k : α) (ks2 : List α), k ∈ ks1 ∨ k ∈ acc →
      (ks1 ++ k :: ks2).foldl seenStep acc = (ks1 ++ ks2).foldl seenStep acc := by
  induction ks1 with
  | nil =>
    intro acc k ks2 h
    have hk : k ∈ acc := by
      rcases h with h | h
      · exact absurd h (List.not_mem_nil k)
      · exact h
    simp [seenStep, hk]
  | cons k1 ks1 ih =>
    intro acc k ks2 h
    rw [List.cons_append, List.foldl_cons, List.cons_append, List.foldl_cons]
    apply ih
    rcases h with h | h
    · rcases List.mem_cons.mp h with rfl | h'
      · exact Or.inr (mem_seenStep_self acc k)
      · exact Or.inl h'
    · exact Or.inr (mem_seenStep_of_mem k1 h)

theorem insertRec_map_fst (gs : List (Key × List Record)) (k : Key) (r : Record) :
    (insertRec gs k r).map Prod.fst = seenStep (gs.map Prod.fst) k := by
  induction gs with
  | nil => simp [insertRec, seenStep]
  | cons g t ih =>
    by_cases hg : g.1 = k
    · simp [insertRec, hg, seenStep]
    · have hm : (k ∈ g.1 :: t.map Prod.fst) ↔ (k ∈ t.map Prod.fst) := by
        constructor
        · intro h
          rcases List.mem_cons.mp h with h1 | h1
          · exact absurd h1.symm hg
          · exact h1
        · intro h
          exact List.mem_cons_of_mem _ h
      simp only [insertRec, if_neg hg, List.map_cons, ih, seenStep]
      by_cases ht : k ∈ t.map Prod.fst
      · rw [if_pos ht, if_pos (hm.mpr ht)]
      · rw [if_neg ht, if_neg (fun h => ht (hm.mp h)), List.cons_append]

theorem foldl_addRecord_map_fst (rs : List Record) :
    ∀ gs : List (Key × List Record),
      ((rs.foldl addRecord gs).map Prod.fst) =
        (rs.map keyOf).foldl seenStep (gs.map Prod.fst) := by
  induction rs with
  | nil => intro gs; rfl
  | cons r rs ih =>
    intro gs
    rw [List.foldl_cons, ih, List.map_cons, List.foldl_cons, addRecord,
      insertRec_map_fst]

/-- The group keys, in output order, are the distinct record keys in
  first-occurrence order. -/
theorem groupsOf_map_fst (rs : List Record) :
    (groupsOf rs).map Prod.fst = firstSeen (rs.map keyOf) := by
  rw [groupsOf, foldl_addRecord_map_fst, firstSeen]
  rfl

theorem lookupItems_insertRec (gs : List (Key × List Record)) (k0 k : Key) (r : Record) :
    lookupItems (insertRec gs k0 r) k =
      if k0 = k then lookupItems gs k ++ [r] else lookupItems gs k := by
  induction gs with
  | nil =>
    by_cases h : k0 = k <;> simp [insertRec, lookupItems, h]
  | cons g t ih =>
    by_cases hg : g.1 = k0
    · by_cases hk : k0 = k
      · subst hk
        simp [insertRec, hg, lookupItems]
      · have hgk : ¬ g.1 = k := fun h => hk (hg.symm.trans h)
        simp [insertRec, hg, lookupItems, hgk, hk]
    · by_cases hgk : g.1 = k
      · have hk : ¬ k0 = k := fun h => hg (hgk.trans h.symm)
        have hk' : ¬ k = k0 := fun h => hk h.symm
        simp [insertRec, hg, lookupItems, hgk, hk, hk']
      · simp [insertRec, hg, lookupItems, hgk, ih]

theorem lookupItems_foldl_addRecord (rs : List Record) :
    ∀ (gs : List (Key × List Record)) (k : Key),
      lookupItems (rs.foldl addRecord gs) k =
        lookupItems gs k ++ rs.filter (fun r => keyOf r == k) := by
  induction rs with
  | nil => intro gs k; simp
  | cons r rs ih =>
    intro gs k
    rw [List.foldl_cons, ih, addRecord, lookupItems_insertRec]
    by_cases h : keyOf r = k
    · simp [List.filter_cons, h, List.append_assoc]
    · simp [List.filter_cons, h]

/-- The members of the group keyed `k` are exactly the records whose key
  is `k`, in input order. -/
theorem lookupItems_groupsOf (rs : List Record) (k : Key) :
    lookupItems (groupsOf rs) k = rs.filter (fun r => keyOf r == k) := by
  rw [groupsOf, lookupItems_foldl_addRecord]
  rfl

theorem foldl_buildStep_spec (gs : List (Key × List Record)) :
    ∀ (ab sev : Bool) (ls : List String),
      gs.foldl buildStep (ab, sev, ls) =
        (ab || gs.any (fun g => !substr "平常運転" g.1.1 && !substr "情報取得エラー" g.1.1),
         sev || gs.any (fun g => List.any ["運転見合わせ", "運休", "脱線"] (fun x => substr x g.1.1)),
         ls ++ gs.map (fun g => renderGroup g.1 g.2)) := by
  induction gs with
  | nil => intro ab sev ls; simp
  | cons g gs ih =>
    intro ab sev ls
    rw [List.foldl_cons]
    show gs.foldl buildStep
      (ab || (!substr "平常運転" g.1.1 && !substr "情報取得エラー" g.1.1),
       sev || List.any ["運転見合わせ", "運休", "脱線"] (fun x => substr x g.1.1),
       ls ++ [renderGroup g.1 g.2]) = _
    rw [ih]
    simp [Bool.or_assoc, List.append_assoc]

theorem pyOrStr_empty (s : String) : pyOrStr s "" = s := by
  unfold pyOrStr
  split
  · exact Eq.symm (by assumption)
  · rfl

theorem any_firstSeen {α : Type} [DecidableEq α] (ks : List α) (q : α → Bool) :
    (firstSeen ks).any q = ks.any q := by
  apply bool_eq_of_iff
  rw [List.any_eq_true, List.any_eq_true]
  constructor
  · rintro ⟨a, ha, hq⟩
    rcases (mem_foldl_seenStep ks [] a).mp ha with h | h
    · exact absurd h (List.not_mem_nil a)
    · exact ⟨a, h, hq⟩
  · rintro ⟨a, ha, hq⟩
    exact ⟨a, (mem_foldl_seenStep ks [] a).mpr (Or.inr ha), hq⟩

theorem groupsOf_any_key (rs : List Record) (q : Key → Bool) :
    (groupsOf rs).any (fun g => q g.1) = rs.any (fun r => q (keyOf r)) := by
  apply bool_eq_of_iff
  rw [List.any_eq_true, List.any_eq_true]
  constructor
  · rintro ⟨g, hg, hq⟩
    have hk : g.1 ∈ (groupsOf rs).map Prod.fst := List.mem_map.mpr ⟨g, hg, rfl⟩
    rw [groupsOf_map_fst] at hk
    rcases (mem_foldl_seenStep (rs.map keyOf) [] g.1).mp hk with h | h
    · exact absurd h (List.not_mem_nil _)
    · obtain ⟨r, hr, hkr⟩ := List.mem_map.mp h
      exact ⟨r, hr, by rw [hkr]; exact hq⟩
  · rintro ⟨r, hr, hq⟩
    have hk : keyOf r ∈ firstSeen (rs.map keyOf) :=
      (mem_foldl_seenStep (rs.map keyOf) [] (keyOf r)).mpr
        (Or.inr (List.mem_map.mpr ⟨r, hr, rfl⟩))
    rw [← groupsOf_map_fst] at hk
    obtain ⟨g, hg, hgk⟩ := List.mem_map.mp hk
    exact ⟨g, hg, by rw [hgk]; exact hq⟩

/-- `has_abnormal` component of `build_grouped_message`, over the records. -/
theorem hasAbnormal_eq (rs : List Record) :
    (buildGroupedMessage rs).1 =
      rs.any (fun r => !substr "平常運転" r.status && !substr "情報取得エラー" r.status) := by
  show ((groupsOf rs).foldl buildStep (false, false, [])).1 = _
  rw [foldl_buildStep_spec]
  show (groupsOf rs).any _ = _
  rw [groupsOf_any_key rs
    (fun k => !substr "平常運転" k.1 && !substr "情報取得エラー" k.1)]
  apply bool_eq_of_iff
  rw [List.any_eq_true, List.any_eq_true]
  constructor
  · rintro ⟨r, hr, hq⟩
    refine ⟨r, hr, ?_⟩
    rw [keyOf] at hq
    simpa [pyOrStr_empty] using hq
  · rintro ⟨r, hr, hq⟩
    refine ⟨r, hr, ?_⟩
    rw [keyOf]
    simpa [pyOrStr_empty] using hq

/-- `has_severe` component of `build_grouped_message`, over the records. -/
theorem hasSevere_eq (rs : List Record) :
    (buildGroupedMessage rs).2.1 =
      rs.any (fun r => List.any ["運転見合わせ", "運休", "脱線"] (fun x => substr x r.status)) := by
  show ((groupsOf rs).foldl buildStep (false, false, [])).2.1 = _
  rw [foldl_buildStep_spec]
  show (groupsOf rs).any _ = _
  rw [groupsOf_any_key rs
    (fun k => List.any ["運転見合わせ", "運休", "脱線"] (fun x => substr x k.1))]
  apply bool_eq_of_iff
  rw [List.any_eq_true, List.any_eq_true]
  constructor
  · rintro ⟨r, hr, hq⟩
    refine ⟨r, hr, ?_⟩
    rw [keyOf] at hq
    simpa [pyOrStr_empty] using hq
  · rintro ⟨r, hr, hq⟩
    refine ⟨r, hr, ?_⟩
    rw [keyOf]
    simpa [pyOrStr_empty] using hq

/-- The body is the blocks joined by blank lines. -/
theorem body_eq_blocks (rs : List Record) :
    (buildGroupedMessage rs).2.2 = String.intercalate "\n\n" (blocksOf rs) := by
  show String.intercalate "\n\n" ((groupsOf rs).foldl buildStep (false, false, [])).2.2 = _
  rw [foldl_buildStep_spec]
  rfl

theorem blocksOf_length_eq (rs : List Record) :
    (blocksOf rs).length = (firstSeen (rs.map keyOf)).length := by
  have h := congrArg List.length (groupsOf_map_fst rs)
  rw [List.length_map] at h
  simp only [blocksOf, List.length_map]
  exact h

/-- Case analysis of the derived status: the sentinel, or the stripped
  form of a qualifying candidate. -/
theorem statusOf_cases (strings : List String) :
    statusOf strings = "状態不明" ∨
      ((statusOf strings).length ≤ 10 ∧
       statusWords.any
         (fun w => w == statusOf strings || substr w (statusOf strings)) = true) := by
  unfold statusOf statusFrom
  cases hscan : scanStatus (statusCandidates strings (updatedOf strings).2) with
  | none => simp [hscan]
  | some t =>
    simp only [hscan]
    obtain ⟨s, _, hq, rfl⟩ := scanStatus_some hscan
    right
    simp only [statusQualifies, Bool.and_eq_true, decide_eq_true_eq] at hq
    exact ⟨hq.1, hq.2⟩

/-! Claim theorems. -/

/-- Claim C1 (code bug witness): the rendered block of a group does not
  begin with a header of the member line names — its first line is empty,
  and the member name never occurs anywhere in the body, although the
  function's own documentation promises a `【name1 / name2 / ...】` header
  as the first line. -/
theorem C1_header_line_is_empty :
    blocksOf
        [{ name := "常磐線(快速)[品川～取手]", updated := "11月27日 15時47分更新",
           status := "平常運転", reason := none, delay_minutes := none }] =
      ["\n状態：平常運転\n更新：11月27日 15時47分更新"] ∧
    substr "常磐線"
      (buildGroupedMessage
        [{ name := "常磐線(快速)[品川～取手]", updated := "11月27日 15時47分更新",
           status := "平常運転", reason := none, delay_minutes := none }]).2.2 = false := by
  constructor
  · rfl
  · rfl

/-- Claim C2 counterexample: with the credential absent, the network trace
  of `main` performs all four page fetches and only then raises the
  configuration error, so a page fetch is attempted. -/
theorem C2_fetches_precede_credential_check :
    mainEvents none =
      [NetEvent.fetch "https://transit.yahoo.co.jp/diainfo/57/0",
       NetEvent.fetch "https://transit.yahoo.co.jp/diainfo/58/0",
       NetEvent.fetch "https://transit.yahoo.co.jp/diainfo/59/59",
       NetEvent.fetch "https://transit.yahoo.co.jp/diainfo/59/60",
       NetEvent.configError] ∧
    NetEvent.fetch "https://transit.yahoo.co.jp/diainfo/57/0" ∈ mainEvents none := by
  constructor
  · rfl
  · decide

/-- Claim C2 amended: an absent (or empty) credential raises the fatal
  configuration error and no notification request is ever attempted,
  though the page fetches have already been attempted. -/
theorem C2_no_notification_when_key_missing (key : Option String)
    (h : keyFalsy key = true) :
    NetEvent.configError ∈ mainEvents key ∧ NetEvent.notify ∉ mainEvents key := by
  rw [mainEvents, sendBarkEvents, if_pos h]
  decide

theorem C2_no_notification_when_key_missing_witness :
    keyFalsy none = true ∧
      (NetEvent.configError ∈ mainEvents none ∧ NetEvent.notify ∉ mainEvents none) :=
  ⟨rfl, C2_no_notification_when_key_missing none rfl⟩

/-- Claim C3 counterexample: with the updated-line index known (`some 0`),
  the token `遅延中` — a strict superstring of a vocabulary word, not an
  exact member — is selected as the status instead of the sentinel. -/
theorem C3_substring_selected_despite_anchor :
    (updatedOf ["X更新", "遅延中"]).2 = some 0 ∧
    statusOf ["X更新", "遅延中"] = "遅延中" ∧
    "遅延中" ∉ statusWords := by
  refine ⟨rfl, rfl, ?_⟩
  decide

/-- Claim C3 amended: status derivation scans the five tokens after the
  updated index (when known) followed by the entire token sequence, and
  selects the first candidate whose stripped text has length at most 10
  and equals or contains a vocabulary word; only if no candidate
  qualifies is the sentinel used. -/
theorem C3_first_qualifying_candidate (strings : List String) :
    (statusOf strings = "状態不明" ∧
      ∀ s ∈ statusCandidates strings (updatedOf strings).2, statusQualifies s = false) ∨
    (∃ pre s post,
      statusCandidates strings (updatedOf strings).2 = pre ++ s :: post ∧
      (∀ t ∈ pre, statusQualifies t = false) ∧
      statusQualifies s = true ∧
      statusOf strings = pyStrip s) := by
  unfold statusOf statusFrom
  rcases scanStatus_spec (statusCandidates strings (updatedOf strings).2) with
    ⟨hn, hall⟩ | ⟨pre, s, post, heq, hpre, hq, hs⟩
  · rw [hn]
    exact Or.inl ⟨rfl, hall⟩
  · rw [hs]
    exact Or.inr ⟨pre, s, post, heq, hpre, hq, rfl⟩

/-- Claim C4 counterexample: two records agreeing on status and reason but
  with different delay minutes produce two blocks, while there is a single
  distinct `(status, reason)` key. -/
theorem C4_delay_minutes_split_groups :
    (blocksOf
        [{ name := "A", updated := "U", status := "遅延", reason := some "r", delay_minutes := some 10 },
         { name := "B", updated := "U", status := "遅延", reason := some "r", delay_minutes := some 20 }]).length = 2 ∧
    (firstSeen
        (([{ name := "A", updated := "U", status := "遅延", reason := some "r", delay_minutes := some 10 },
           { name := "B", updated := "U", status := "遅延", reason := some "r", delay_minutes := some 20 }] :
            List Record).map (fun r => (r.status, pyOrOptStr r.reason "")))).length = 1 := by
  constructor
  · rfl
  · rfl

/-- Claim C4 amended: the number of blocks equals the number of distinct
  normalized `(status, reason or empty, delay or zero)` keys, the group
  keys appear in first-occurrence order of the records, and the body is
  the blocks joined by blank lines in that order. -/
theorem C4_blocks_match_first_seen_keys (results : List Record) :
    (blocksOf results).length = (firstSeen (results.map keyOf)).length ∧
    (groupsOf results).map Prod.fst = firstSeen (results.map keyOf) ∧
    (buildGroupedMessage results).2.2 = String.intercalate "\n\n" (blocksOf results) :=
  ⟨blocksOf_length_eq results, groupsOf_map_fst results, body_eq_blocks results⟩

/-- Claim C5 counterexample: a record whose status strictly contains the
  normal-operation label is not counted as abnormal, although its status
  equals neither the normal-operation label nor the error sentinel. -/
theorem C5_containment_not_equality :
    (buildGroupedMessage
        [{ name := "A", updated := "U", status := "平常運転中",
           reason := none, delay_minutes := none }]).1 = false ∧
    ("平常運転中" : String) ≠ "平常運転" ∧
    ("平常運転中" : String) ≠ "情報取得エラー" := by
  refine ⟨rfl, ?_, ?_⟩ <;> decide

/-- Claim C5 amended: `hasAbnormal` is true iff some record's status
  contains neither the normal-operation label nor the retrieval-error
  sentinel as a substring; a list with one retrieval-error record and the
  rest normal still yields `hasAbnormal = false` and the OK icon. -/
theorem C5_hasAbnormal_by_containment :
    (∀ results : List Record,
      (buildGroupedMessage results).1 =
        results.any (fun r =>
          !substr "平常運転" r.status && !substr "情報取得エラー" r.status)) ∧
    (buildGroupedMessage
        [{ name := "A", updated := "取得失敗", status := "情報取得エラー",
           reason := some "err", delay_minutes := none },
         { name := "B", updated := "U", status := "平常運転", reason := none, delay_minutes := none },
         { name := "C", updated := "U", status := "平常運転", reason := none, delay_minutes := none },
         { name := "D", updated := "U", status := "平常運転", reason := none, delay_minutes := none }]).1 = false ∧
    chooseIcon
      (buildGroupedMessage
        [{ name := "A", updated := "取得失敗", status := "情報取得エラー",
           reason := some "err", delay_minutes := none },
         { name := "B", updated := "U", status := "平常運転", reason := none, delay_minutes := none },
         { name := "C", updated := "U", status := "平常運転", reason := none, delay_minutes := none },
         { name := "D", updated := "U", status := "平常運転", reason := none, delay_minutes := none }]).1
      (buildGroupedMessage
        [{ name := "A", updated := "取得失敗", status := "情報取得エラー",
           reason := some "err", delay_minutes := none },
         { name := "B", updated := "U", status := "平常運転", reason := none, delay_minutes := none },
         { name := "C", updated := "U", status := "平常運転", reason := none, delay_minutes := none },
         { name := "D", updated := "U", status := "平常運転", reason := none, delay_minutes := none }]).2.1 =
      ICON_OK :=
  ⟨hasAbnormal_eq, rfl, rfl⟩

/-- Claim C6 counterexample: a record whose status strictly contains a
  severe vocabulary word is counted severe, although its status is not a
  member of the severity subset. -/
theorem C6_containment_not_membership :
    (buildGroupedMessage
        [{ name := "A", updated := "U", status := "一部運休",
           reason := none, delay_minutes := none }]).2.1 = true ∧
    ("一部運休" : String) ∉ (["運転見合わせ", "運休", "脱線"] : List String) := by
  refine ⟨rfl, ?_⟩
  decide

/-- Claim C6 amended: `hasSevere` is true iff some record's status
  contains one of the severe vocabulary words as a substring; one
  service-suspended record among three normal ones yields
  `hasAbnormal = true`, `hasSevere = true` and the SEVERE icon. -/
theorem C6_hasSevere_by_containment :
    (∀ results : List Record,
      (buildGroupedMessage results).2.1 =
        results.any (fun r =>
          List.any ["運転見合わせ", "運休", "脱線"] (fun x => substr x r.status))) ∧
    (buildGroupedMessage
        [{ name := "A", updated := "U", status := "運転見合わせ", reason := none, delay_minutes := none },
         { name := "B", updated := "U", status := "平常運転", reason := none, delay_minutes := none },
         { name := "C", updated := "U", status := "平常運転", reason := none, delay_minutes := none },
         { name := "D", updated := "U", status := "平常運転", reason := none, delay_minutes := none }]).1 = true ∧
    (buildGroupedMessage
        [{ name := "A", updated := "U", status := "運転見合わせ", reason := none, delay_minutes := none },
         { name := "B", updated := "U", status := "平常運転", reason := none, delay_minutes := none },
         { name := "C", updated := "U", status := "平常運転", reason := none, delay_minutes := none },
         { name := "D", updated := "U", status := "平常運転", reason := none, delay_minutes := none }]).2.1 = true ∧
    chooseIcon true true = ICON_ERROR :=
  ⟨hasSevere_eq, rfl, rfl, rfl⟩

/-- Claim C7 counterexample: the sequence `["遅延"]` contains no date/time
  token and no configured line name, yet the derived status is `遅延`, not
  the sentinel. -/
theorem C7_status_found_without_datetime :
    (["遅延"] : List String).all (fun s => !dtSearch (pyStrip s)) = true ∧
    LINES.all (fun p => !(p.1 == "遅延")) = true ∧
    statusOf ["遅延"] = "遅延" ∧
    ("遅延" : String) ≠ "状態不明" := by
  refine ⟨rfl, ?_, rfl, ?_⟩ <;> decide

/-- Claim C7 amended: when no token's stripped form ends in the update
  marker (without the publication word), no token contains the date/time
  pattern, no token qualifies as a status candidate, and the detail text
  (the first thirty tokens joined by spaces) contains no incident trigger
  word, extraction yields the time and status sentinels and an absent
  reason. -/
theorem C7_sentinels_when_nothing_recognized (strings : List String)
    (h1 : strings.all
      (fun s => !(pyEndsWith (pyStrip s) "更新" && !substr "掲載" (pyStrip s))) = true)
    (h2 : strings.all (fun s => !dtSearch (pyStrip s)) = true)
    (h3 : strings.all (fun s => !statusQualifies s) = true)
    (h4 : triggerWords.all
      (fun kw => !substr kw (String.intercalate " " (strings.take 30))) = true) :
    (fetchPageInfo strings).1 = "更新時刻不明" ∧
    (fetchPageInfo strings).2.1 = "状態不明" ∧
    (fetchPageInfo strings).2.2 = String.intercalate " " (strings.take 30) ∧
    (extractReasonAndDelay (String.intercalate " " (strings.take 30)) "状態不明").1 = none := by
  have hb1 : ∀ s ∈ strings,
      (pyEndsWith (pyStrip s) "更新" && !substr "掲載" (pyStrip s)) = false := by
    intro s hs
    have h := List.all_eq_true.mp h1 s hs
    revert h
    cases (pyEndsWith (pyStrip s) "更新" && !substr "掲載" (pyStrip s)) <;> simp
  have hb2 : ∀ s ∈ strings, dtSearch (pyStrip s) = false := by
    intro s hs
    have := List.all_eq_true.mp h2 s hs
    simpa using this
  have hu : updatedOf strings = ("更新時刻不明", none) := by
    unfold updatedOf
    rw [findWithIdx_eq_none hb1, findWithIdx_eq_none hb2]
  have hst : statusFrom strings none = "状態不明" := by
    unfold statusFrom
    have hn : scanStatus (statusCandidates strings none) = none := by
      apply scanStatus_eq_none
      intro s hs
      simp only [statusCandidates, List.nil_append] at hs
      have := List.all_eq_true.mp h3 s hs
      simpa using this
    rw [hn]
  have htr : triggerWords.any
      (fun kw => substr kw (String.intercalate " " (strings.take 30))) = false := by
    rw [List.any_eq_false]
    intro kw hkw
    have := List.all_eq_true.mp h4 kw hkw
    simpa using this
  refine ⟨?_, ?_, ?_, ?_⟩
  · show (updatedOf strings).1 = _
    rw [hu]
  · show statusFrom strings (updatedOf strings).2 = _
    rw [hu]
    exact hst
  · show detailOf strings (statusFrom strings (updatedOf strings).2) (updatedOf strings).2 = _
    rw [hu]
    show detailOf strings (statusFrom strings none) none = _
    rw [hst]
    rfl
  · have hnp : substr "平常運転" "状態不明" = false := by decide
    by_cases hph :
        substr "事故・遅延に関する情報はありません"
          (String.intercalate " " (strings.take 30)) = true
    · simp [extractReasonAndDelay, hnp, hph]
    · have hph' := Bool.eq_false_iff.mpr hph
      simp [extractReasonAndDelay, hnp, hph', htr]

theorem C7_sentinels_when_nothing_recognized_witness :
    ((["こんにちは"] : List String).all
      (fun s => !(pyEndsWith (pyStrip s) "更新" && !substr "掲載" (pyStrip s))) = true) ∧
    ((["こんにちは"] : List String).all (fun s => !dtSearch (pyStrip s)) = true) ∧
    ((["こんにちは"] : List String).all (fun s => !statusQualifies s) = true) ∧
    (triggerWords.all
      (fun kw => !substr kw (String.intercalate " " ((["こんにちは"] : List String).take 30))) = true) ∧
    ((fetchPageInfo ["こんにちは"]).1 = "更新時刻不明" ∧
     (fetchPageInfo ["こんにちは"]).2.1 = "状態不明" ∧
     (fetchPageInfo ["こんにちは"]).2.2 =
       String.intercalate " " ((["こんにちは"] : List String).take 30) ∧
     (extractReasonAndDelay
       (String.intercalate " " ((["こんにちは"] : List String).take 30)) "状態不明").1 = none) :=
  ⟨rfl, rfl, rfl, rfl,
    C7_sentinels_when_nothing_recognized ["こんにちは"] rfl rfl rfl rfl⟩

/-- Claim C8: a fetch failure on one configured line yields exactly the
  sentinel error record in that line's position, while every other line's
  record is computed as usual — the failure never removes or blocks the
  remaining lines, and one record is produced per configured line. -/
theorem C8_per_line_failure_isolation (f : String → Except String (List String))
    (pre post : List (String × String)) (name url e : String)
    (h1 : LINES = pre ++ (name, url) :: post) (h2 : f url = Except.error e) :
    collectAllLines f =
      pre.map (processLine f) ++
        ({ name := name, updated := "取得失敗", status := "情報取得エラー",
           reason := some e, delay_minutes := none } : Record) ::
          post.map (processLine f) ∧
    (collectAllLines f).length = LINES.length := by
  constructor
  · rw [collectAllLines, h1, List.map_append, List.map_cons]
    have hmid : processLine f (name, url) =
        { name := name, updated := "取得失敗", status := "情報取得エラー",
          reason := some e, delay_minutes := none } := by
      simp [processLine, h2]
    rw [hmid]
  · rw [collectAllLines, List.length_map]

def fBoom : String → Except String (List String) := fun _ => Except.error "boom"

theorem C8_per_line_failure_isolation_witness :
    LINES = [] ++ ("常磐線(快速)[品川～取手]", "https://transit.yahoo.co.jp/diainfo/57/0") ::
        [("常磐線(各停)", "https://transit.yahoo.co.jp/diainfo/58/0"),
         ("常磐線[品川～水戸]", "https://transit.yahoo.co.jp/diainfo/59/59"),
         ("常磐線[水戸～いわき]", "https://transit.yahoo.co.jp/diainfo/59/60")] ∧
    fBoom "https://transit.yahoo.co.jp/diainfo/57/0" = Except.error "boom" ∧
    (collectAllLines fBoom =
      ([] : List (String × String)).map (processLine fBoom) ++
        ({ name := "常磐線(快速)[品川～取手]", updated := "取得失敗",
           status := "情報取得エラー", reason := some "boom",
           delay_minutes := none } : Record) ::
          ([("常磐線(各停)", "https://transit.yahoo.co.jp/diainfo/58/0"),
            ("常磐線[品川～水戸]", "https://transit.yahoo.co.jp/diainfo/59/59"),
            ("常磐線[水戸～いわき]", "https://transit.yahoo.co.jp/diainfo/59/60")] :
              List (String × String)).map (processLine fBoom) ∧
     (collectAllLines fBoom).length = LINES.length) :=
  ⟨rfl, rfl,
    C8_per_line_failure_isolation fBoom []
      [("常磐線(各停)", "https://transit.yahoo.co.jp/diainfo/58/0"),
       ("常磐線[品川～水戸]", "https://transit.yahoo.co.jp/diainfo/59/59"),
       ("常磐線[水戸～いわき]", "https://transit.yahoo.co.jp/diainfo/59/60")]
      "常磐線(快速)[品川～取手]" "https://transit.yahoo.co.jp/diainfo/57/0" "boom" rfl rfl⟩

/-- Claim C9: the grouping key normalizes absent fields — a record with
  `reason = none` and its copy with `reason = some ""` (likewise
  `delay_minutes = none` versus `some 0`) share a key, both land in the
  same group of any surrounding input list, and the duplicate adds no
  extra block. -/
theorem C9_key_normalizes_absent_fields (pre mid post : List Record) (r b : Record)
    (h : (r.reason = none ∧ b = { r with reason := some "" }) ∨
         (r.delay_minutes = none ∧ b = { r with delay_minutes := some 0 })) :
    keyOf r = keyOf b ∧
    r ∈ lookupItems (groupsOf (pre ++ r :: mid ++ b :: post)) (keyOf r) ∧
    b ∈ lookupItems (groupsOf (pre ++ r :: mid ++ b :: post)) (keyOf r) ∧
    (blocksOf (pre ++ r :: mid ++ b :: post)).length =
      (blocksOf (pre ++ r :: mid ++ post)).length := by
  have hk : keyOf r = keyOf b := by
    rcases h with ⟨h1, h2⟩ | ⟨h1, h2⟩ <;> subst h2 <;>
      simp [keyOf, pyOrOptStr, pyOrOptNat, h1]
  refine ⟨hk, ?_, ?_, ?_⟩
  · rw [lookupItems_groupsOf]
    apply List.mem_filter.mpr
    refine ⟨?_, by simp⟩
    simp
  · rw [lookupItems_groupsOf]
    apply List.mem_filter.mpr
    constructor
    · simp
    · rw [← hk]
      simp
  · have hshape1 : (pre ++ r :: mid ++ b :: post).map keyOf =
        (pre.map keyOf ++ keyOf r :: mid.map keyOf) ++ keyOf b :: post.map keyOf := by
      simp
    have hshape2 : (pre ++ r :: mid ++ post).map keyOf =
        (pre.map keyOf ++ keyOf r :: mid.map keyOf) ++ post.map keyOf := by
      simp
    rw [blocksOf_length_eq, blocksOf_length_eq, hshape1, hshape2, firstSeen, firstSeen,
      foldl_seenStep_dup]
    left
    apply List.mem_append.mpr
    refine Or.inr ?_
    rw [← hk]
    exact List.mem_cons_self _ _

def rW9 : Record :=
  { name := "A", updated := "U", status := "遅延", reason := none, delay_minutes := some 3 }

def bW9 : Record := { rW9 with reason := some "" }

theorem C9_key_normalizes_absent_fields_witness :
    ((rW9.reason = none ∧ bW9 = { rW9 with reason := some "" }) ∨
     (rW9.delay_minutes = none ∧ bW9 = { rW9 with delay_minutes := some 0 })) ∧
    (keyOf rW9 = keyOf bW9 ∧
     rW9 ∈ lookupItems (groupsOf ([] ++ rW9 :: [] ++ bW9 :: [])) (keyOf rW9) ∧
     bW9 ∈ lookupItems (groupsOf ([] ++ rW9 :: [] ++ bW9 :: [])) (keyOf rW9) ∧
     (blocksOf ([] ++ rW9 :: [] ++ bW9 :: [])).length =
       (blocksOf ([] ++ rW9 :: [] ++ [])).length) :=
  ⟨Or.inl ⟨rfl, rfl⟩,
    C9_key_normalizes_absent_fields [] [] [] rW9 bW9 (Or.inl ⟨rfl, rfl⟩)⟩

/-- Claim C10: every status a record carries is the retrieval-error
  sentinel, the unknown sentinel, or a string of at most ten characters
  that equals or contains a vocabulary word — and the same invariant holds
  for the status derived from any token sequence. -/
theorem C10_status_vocabulary_invariant :
    (∀ strings : List String,
      statusOf strings = "状態不明" ∨
        ((statusOf strings).length ≤ 10 ∧
         statusWords.any
           (fun w => w == statusOf strings || substr w (statusOf strings)) = true)) ∧
    (∀ f : String → Except String (List String),
      (collectAllLines f).all (fun rec =>
        rec.status == "情報取得エラー" || rec.status == "状態不明" ||
          (decide (rec.status.length ≤ 10) &&
           statusWords.any (fun w => w == rec.status || substr w rec.status))) = true) := by
  refine ⟨statusOf_cases, ?_⟩
  intro f
  rw [List.all_eq_true]
  intro rec hrec
  rw [collectAllLines] at hrec
  obtain ⟨p, hp, rfl⟩ := List.mem_map.mp hrec
  cases hf : f p.2 with
  | error e =>
    simp [processLine, hf]
  | ok strings =>
    have hst : (processLine f p).status = statusOf strings := by
      simp [processLine, hf]
      rfl
    rw [hst]
    rcases statusOf_cases strings with h | ⟨hlen, hany⟩
    · rw [h]
      rfl
    · simp [hlen, hany]

end JobanYahoo
